import Mathlib

/-!
Verification of the training-orchestration core of the repository
(`src/experimenters/multiple_datasets/train.py`,
`src/experimenters/multiple_datasets/dataset.py`, `src/dataset.py`).

The modelled parts are:
* the trainer loop `MultiTrainer.fit` (epoch iteration, validation cadence,
  early stopping, checkpoint/best-model persistence, interrupt handling,
  final teardown);
* the setup phase (`MultiTrainer.setup_dataset` loss-name dispatch,
  `MultiTrainer.setup_training` pre-flight sanity checks, optimizer-name
  dispatch and the profile override of `num_epochs`);
* `MultiModuleRunner.validate_one_epoch` (per-dataset batch iteration);
* the custom multiplicative-intensity augmentation of `src/dataset.py`
  (`generate_multiplicative`);
* `get_datasets` of `src/experimenters/multiple_datasets/dataset.py`.

Numeric metric values are modelled as exact rationals: the loop logic only
compares them with `<` / `>`, so the order structure is all that matters.
The `KeyboardInterrupt` cancellation signal is modelled as delivered at the
loop boundary (between the persisted writes of consecutive epochs), which is
the atomicity model stated in the spec's concurrency section: an in-flight
step is never cancelled, and no persist operation is interrupted midway.
-/

/-- Configuration options of the run that the trainer loop reads
(`args.*` in `MultiTrainer.fit` / `MultiTrainer.setup_training`). -/
structure Config where
  num_epochs : Nat
  validate_every : Nat
  patience : Option Nat
  maximize_validation_metric : Bool
  copy_model_every : Nat
  log_wandb : Bool
  profile : Bool
deriving Repr, DecidableEq

/-- Mutable loop state of `MultiTrainer.fit`: `best_val_metric` starts at
`-inf` (maximizing) or `inf` (minimizing), modelled as `none`, and
`epochs_without_improvement` starts at `0`. -/
structure LoopState where
  best_val_metric : Option ℚ
  epochs_without_improvement : Nat
deriving Repr, DecidableEq

def initState : LoopState := ⟨none, 0⟩

/-- Line 276 of `train.py`:
`validate = epoch==0 or epoch==args.num_epochs-1 or epoch%args.validate_every==0`. -/
def validateAt (cfg : Config) (epoch : Nat) : Bool :=
  epoch == 0 || epoch == cfg.num_epochs - 1 || epoch % cfg.validate_every == 0

/-- Lines 258-260 and 315 of `train.py`: `compare = operator.gt if maximize
else operator.lt`, applied as `compare(val_metric, best_val_metric)`; the
initial `±inf` value (modelled `none`) always compares as an improvement. -/
def improves (maximize : Bool) (v : ℚ) (best : Option ℚ) : Bool :=
  match best with
  | none => true
  | some b => if maximize then decide (b < v) else decide (v < b)

/-- Persisted artifacts and decisions of one fully executed epoch body
(lines 275-323 of `train.py`).  `wrote_checkpoint` records the
unconditional `torch.save(checkpoint, run_path/"checkpoint.pt")`,
`wrote_copy` the periodic numbered copy, `wrote_best` the conditional
`torch.save(checkpoint, run_path/"best_model.pt")`. -/
structure EpochRecord where
  epoch : Nat
  validated : Bool
  wrote_checkpoint : Bool
  wrote_copy : Bool
  wrote_best : Bool
deriving Repr, DecidableEq

/-- How the `for epoch in pbar` loop of `MultiTrainer.fit` ended:
ran all epochs, hit the early-stopping `break`, or was interrupted by
`KeyboardInterrupt` (caught by the surrounding `try`). -/
inductive ExitKind where
  | completed
  | earlyStopped (epoch : Nat)
  | interrupted (epoch : Nat)
deriving Repr, DecidableEq

/-- One iteration of the loop body of `MultiTrainer.fit` for a given epoch:
returns the epoch's persisted record, the updated loop state, and whether
the early-stopping `break` fires (lines 276-323 of `train.py`).
`metric` gives the logged value of `args.validation_metric` at each epoch. -/
def epochBody (cfg : Config) (metric : Nat → ℚ) (epoch : Nat) (s : LoopState) :
    EpochRecord × LoopState × Bool :=
  let validate := validateAt cfg epoch
  let wroteCopy := cfg.copy_model_every != 0 && epoch % cfg.copy_model_every == 0
  if validate then
    if improves cfg.maximize_validation_metric (metric epoch) s.best_val_metric then
      (⟨epoch, true, true, wroteCopy, true⟩, ⟨some (metric epoch), 0⟩, false)
    else
      let c := s.epochs_without_improvement + 1
      let brk := match cfg.patience with
        | none => false
        | some p => decide (c > p)
      (⟨epoch, true, true, wroteCopy, false⟩, ⟨s.best_val_metric, c⟩, brk)
  else
    (⟨epoch, false, true, wroteCopy, false⟩, s, false)

/-- The epoch loop of `MultiTrainer.fit`, by fuel (`remaining` epochs left).
`interrupt = some k` models a `KeyboardInterrupt` delivered during epoch
`k`'s body: epoch `k` persists nothing and the exception is caught at the
loop boundary (the spec's atomicity model for cancellation). -/
def fitFrom (cfg : Config) (metric : Nat → ℚ) (interrupt : Option Nat) :
    Nat → Nat → LoopState → List EpochRecord × ExitKind
  | 0, _, _ => ([], ExitKind.completed)
  | remaining + 1, epoch, s =>
    if interrupt = some epoch then
      ([], ExitKind.interrupted epoch)
    else
      let step := epochBody cfg metric epoch s
      if step.2.2 then
        ([step.1], ExitKind.earlyStopped epoch)
      else
        let rest := fitFrom cfg metric interrupt remaining (epoch + 1) step.2.1
        (step.1 :: rest.1, rest.2)

/-- Outcome of `MultiTrainer.fit`: the per-epoch persisted records, how the
loop ended, and the teardown actions after the loop (`wandb.finish()` when
`args.log_wandb`, and the final timestamped `config.yaml`, written on every
path out of the loop). -/
structure FitResult where
  trace : List EpochRecord
  exit : ExitKind
  wandb_finished : Bool
  config_written : Bool
deriving Repr, DecidableEq

/-- `MultiTrainer.fit` (lines 244-343 of `train.py`). -/
def fit (cfg : Config) (metric : Nat → ℚ) (interrupt : Option Nat) : FitResult :=
  let run := fitFrom cfg metric interrupt cfg.num_epochs 0 initState
  ⟨run.1, run.2, cfg.log_wandb, true⟩

/-- Loop state reached after fully executing epochs `0, …, e-1`
(no break and no interrupt among them). -/
def stateAfter (cfg : Config) (metric : Nat → ℚ) : Nat → LoopState
  | 0 => initState
  | e + 1 => (epochBody cfg metric e (stateAfter cfg metric e)).2.1

/-- The record epoch `e` persists when the loop reaches it. -/
def recAt (cfg : Config) (metric : Nat → ℚ) (e : Nat) : EpochRecord :=
  (epochBody cfg metric e (stateAfter cfg metric e)).1

/-- Whether the early-stopping `break` fires at epoch `e` when the loop
reaches it. -/
def breakAt (cfg : Config) (metric : Nat → ℚ) (e : Nat) : Bool :=
  (epochBody cfg metric e (stateAfter cfg metric e)).2.2

/-- Unfolding lemma: as long as neither the early-stopping `break` nor the
interrupt fires before epoch `b`, the run through epochs `k, …, b-1`
contributes exactly the records `recAt` of those epochs, and continues from
epoch `b` in state `stateAfter b`. -/
lemma fitFrom_upto (cfg : Config) (metric : Nat → ℚ) (interrupt : Option Nat) (b : Nat)
    (h : ∀ t, t < b → breakAt cfg metric t = false ∧ interrupt ≠ some t) :
    ∀ j k, k + j = b → ∀ r,
      fitFrom cfg metric interrupt (j + r) k (stateAfter cfg metric k) =
        ((List.range' k j).map (recAt cfg metric) ++
            (fitFrom cfg metric interrupt r b (stateAfter cfg metric b)).1,
          (fitFrom cfg metric interrupt r b (stateAfter cfg metric b)).2) := by
  intro j
  induction j with
  | zero =>
    intro k hk r
    subst hk
    simp
  | succ j ih =>
    intro k hk r
    have hk' : k < b := by omega
    have hbrk : breakAt cfg metric k = false := (h k hk').1
    have hint : interrupt ≠ some k := (h k hk').2
    have hfuel : j + 1 + r = (j + r) + 1 := by omega
    rw [hfuel]
    show fitFrom cfg metric interrupt ((j + r) + 1) k (stateAfter cfg metric k) = _
    rw [fitFrom, if_neg hint]
    have hstep : (epochBody cfg metric k (stateAfter cfg metric k)).2.2 = false := hbrk
    simp only [hstep, Bool.false_eq_true, if_false]
    have hstate : (epochBody cfg metric k (stateAfter cfg metric k)).2.1 =
        stateAfter cfg metric (k + 1) := rfl
    rw [hstate]
    have hrec : (epochBody cfg metric k (stateAfter cfg metric k)).1 = recAt cfg metric k := rfl
    rw [hrec, ih (k + 1) (by omega) r]
    have hrange : List.range' k (j + 1) = k :: List.range' (k + 1) j := rfl
    rw [hrange]
    simp

/-- The loop never produces more epoch records than it has fuel. -/
lemma fitFrom_length_le (cfg : Config) (metric : Nat → ℚ) (interrupt : Option Nat) :
    ∀ r k s, (fitFrom cfg metric interrupt r k s).1.length ≤ r := by
  intro r
  induction r with
  | zero => intro k s; simp [fitFrom]
  | succ r ih =>
    intro k s
    rw [fitFrom]
    by_cases hi : interrupt = some k
    · simp [hi]
    · rw [if_neg hi]
      by_cases hb : (epochBody cfg metric k s).2.2 = true
      · simp [hb]
      · simp only [Bool.not_eq_true] at hb
        simp only [hb, Bool.false_eq_true, if_false, List.length_cons]
        exact Nat.succ_le_succ (ih (k + 1) _)

/-- Every record the loop emits is the `epochBody` record of its own epoch,
so its `validated` flag is `validateAt` of its `epoch` field, and its
checkpoint flag is set. -/
lemma fitFrom_mem_trace (cfg : Config) (metric : Nat → ℚ) (interrupt : Option Nat) :
    ∀ r k s rc, rc ∈ (fitFrom cfg metric interrupt r k s).1 →
      rc.validated = validateAt cfg rc.epoch ∧ rc.wrote_checkpoint = true := by
  intro r
  induction r with
  | zero => intro k s rc h; simp [fitFrom] at h
  | succ r ih =>
    intro k s rc h
    rw [fitFrom] at h
    by_cases hi : interrupt = some k
    · simp [hi] at h
    · rw [if_neg hi] at h
      have hbody : ∀ s' : LoopState, rc = (epochBody cfg metric k s').1 →
          rc.validated = validateAt cfg rc.epoch ∧ rc.wrote_checkpoint = true := by
        intro s' hrc
        subst hrc
        unfold epochBody
        by_cases hv : validateAt cfg k
        · simp only [hv, if_true]
          by_cases himp :
              improves cfg.maximize_validation_metric (metric k) s'.best_val_metric = true
          · simp [himp, hv]
          · simp only [himp] at *
            simp [hv, himp]
        · simp [hv]
      by_cases hb : (epochBody cfg metric k s).2.2 = true
      · simp only [hb, if_true, List.mem_singleton] at h
        exact hbody s h
      · simp only [Bool.not_eq_true] at hb
        simp only [hb, Bool.false_eq_true, if_false, List.mem_cons] at h
        rcases h with h | h
        · exact hbody s h
        · exact ih (k + 1) _ rc h

/-- When `validate_every = 1` every epoch is a validation epoch. -/
lemma validateAt_of_every_one (cfg : Config) (h : cfg.validate_every = 1) (t : Nat) :
    validateAt cfg t = true := by
  simp [validateAt, h, Nat.mod_one]

/-- On a validation epoch with improvement, the body resets the counter,
records the new best value, and does not break. -/
lemma epochBody_state_improve (cfg : Config) (m : Nat → ℚ) (e : Nat) (s : LoopState)
    (hv : validateAt cfg e = true)
    (hi : improves cfg.maximize_validation_metric (m e) s.best_val_metric = true) :
    (epochBody cfg m e s).2.1 = ⟨some (m e), 0⟩ ∧ (epochBody cfg m e s).2.2 = false := by
  unfold epochBody
  simp [hv, hi]

/-- On a validation epoch without improvement (finite patience `p`), the
body increments the counter and breaks exactly when it exceeds `p`. -/
lemma epochBody_state_noimprove (cfg : Config) (m : Nat → ℚ) (e : Nat) (s : LoopState)
    (p : Nat) (hv : validateAt cfg e = true)
    (hni : improves cfg.maximize_validation_metric (m e) s.best_val_metric = false)
    (hpat : cfg.patience = some p) :
    (epochBody cfg m e s).2.1 = ⟨s.best_val_metric, s.epochs_without_improvement + 1⟩ ∧
      (epochBody cfg m e s).2.2 = decide (s.epochs_without_improvement + 1 > p) := by
  unfold epochBody
  simp [hv, hni, hpat]

/-- During a non-improvement streak right after an improvement at epoch `e`
(validating every epoch), the counter after epoch `e + 1 + j` is exactly
`j + 1`, i.e. the state entering epoch `e + 1 + j` is `⟨some (m e), j⟩`. -/
lemma stateAfter_streak (cfg : Config) (m : Nat → ℚ) (e p : Nat)
    (hval : cfg.validate_every = 1) (hpat : cfg.patience = some p)
    (hbase : stateAfter cfg m (e + 1) = ⟨some (m e), 0⟩)
    (hnoimp : ∀ t, e < t → t ≤ e + p + 1 →
        improves cfg.maximize_validation_metric (m t) (some (m e)) = false) :
    ∀ j, j ≤ p → stateAfter cfg m (e + 1 + j) = ⟨some (m e), j⟩ := by
  intro j
  induction j with
  | zero => intro _; simpa using hbase
  | succ j ih =>
    intro hj
    have hstate := ih (by omega)
    have hv := validateAt_of_every_one cfg hval (e + 1 + j)
    have hni : improves cfg.maximize_validation_metric (m (e + 1 + j)) (some (m e)) = false :=
      hnoimp (e + 1 + j) (by omega) (by omega)
    have hstep : stateAfter cfg m (e + 1 + (j + 1)) =
        (epochBody cfg m (e + 1 + j) (stateAfter cfg m (e + 1 + j))).2.1 := rfl
    rw [hstep, hstate]
    have hni' : improves cfg.maximize_validation_metric (m (e + 1 + j))
        (LoopState.best_val_metric ⟨some (m e), j⟩) = false := hni
    rw [(epochBody_state_noimprove cfg m (e + 1 + j) _ p hv hni' hpat).1]

/-- C1: in a run that validates every epoch with finite patience `p`, if the
configured validation metric improves (per the configured comparator) at
epoch `e` — and the loop reaches epoch `e` (no earlier break) — but fails to
improve over `m e` for the `p + 1` following validation epochs, then the
trainer loop terminates early at exactly epoch `e + p + 1`, as a normal
terminal state (the final teardown, including the config write, still runs). -/
theorem early_stop_terminates_at_patience_boundary
    (cfg : Config) (m : Nat → ℚ) (e p : Nat)
    (hval : cfg.validate_every = 1)
    (hpat : cfg.patience = some p)
    (hN : e + p + 1 < cfg.num_epochs)
    (hreach : ∀ t, t < e → breakAt cfg m t = false)
    (himp : improves cfg.maximize_validation_metric (m e)
        ((stateAfter cfg m e).best_val_metric) = true)
    (hnoimp : ∀ t, e < t → t ≤ e + p + 1 →
        improves cfg.maximize_validation_metric (m t) (some (m e)) = false) :
    (fit cfg m none).exit = ExitKind.earlyStopped (e + p + 1) ∧
      (fit cfg m none).config_written = true := by
  have hv : ∀ t, validateAt cfg t = true := validateAt_of_every_one cfg hval
  have hbase : stateAfter cfg m (e + 1) = ⟨some (m e), 0⟩ := by
    show (epochBody cfg m e (stateAfter cfg m e)).2.1 = _
    exact (epochBody_state_improve cfg m e _ (hv e) himp).1
  have hstreak := stateAfter_streak cfg m e p hval hpat hbase hnoimp
  have hbrk_e : breakAt cfg m e = false :=
    (epochBody_state_improve cfg m e _ (hv e) himp).2
  have hbrk_mid : ∀ j, j < p → breakAt cfg m (e + 1 + j) = false := by
    intro j hj
    unfold breakAt
    rw [hstreak j (le_of_lt hj)]
    have hni : improves cfg.maximize_validation_metric (m (e + 1 + j))
        (LoopState.best_val_metric ⟨some (m e), j⟩) = false :=
      hnoimp (e + 1 + j) (by omega) (by omega)
    rw [(epochBody_state_noimprove cfg m (e + 1 + j) _ p (hv _) hni hpat).2]
    simp only [decide_eq_false_iff_not]
    omega
  have hbrk_final : breakAt cfg m (e + p + 1) = true := by
    have h1 : e + p + 1 = e + 1 + p := by omega
    rw [h1]
    unfold breakAt
    rw [hstreak p le_rfl]
    have hni : improves cfg.maximize_validation_metric (m (e + 1 + p))
        (LoopState.best_val_metric ⟨some (m e), p⟩) = false :=
      hnoimp (e + 1 + p) (by omega) (by omega)
    rw [(epochBody_state_noimprove cfg m (e + 1 + p) _ p (hv _) hni hpat).2]
    simp only [decide_eq_true_eq]
    omega
  have hb : ∀ t, t < e + p + 1 →
      breakAt cfg m t = false ∧ (none : Option Nat) ≠ some t := by
    intro t ht
    refine ⟨?_, by simp⟩
    rcases Nat.lt_trichotomy t e with h | h | h
    · exact hreach t h
    · subst h; exact hbrk_e
    · have ht' : t = e + 1 + (t - e - 1) := by omega
      rw [ht']
      exact hbrk_mid (t - e - 1) (by omega)
  obtain ⟨r, hr⟩ : ∃ r, cfg.num_epochs = (e + p + 1) + (r + 1) :=
    ⟨cfg.num_epochs - (e + p + 1) - 1, by omega⟩
  have hmain := fitFrom_upto cfg m none (e + p + 1) hb (e + p + 1) 0 (by omega) (r + 1)
  have hb2 : (epochBody cfg m (e + p + 1) (stateAfter cfg m (e + p + 1))).2.2 = true :=
    hbrk_final
  have htail : fitFrom cfg m none (r + 1) (e + p + 1) (stateAfter cfg m (e + p + 1)) =
      ([recAt cfg m (e + p + 1)], ExitKind.earlyStopped (e + p + 1)) := by
    rw [fitFrom, if_neg (by simp)]
    simp only [hb2, if_true]
    rfl
  refine ⟨?_, rfl⟩
  show (fitFrom cfg m none cfg.num_epochs 0 initState).2 = _
  calc (fitFrom cfg m none cfg.num_epochs 0 initState).2
      = (fitFrom cfg m none cfg.num_epochs 0 (stateAfter cfg m 0)).2 := rfl
    _ = (fitFrom cfg m none ((e + p + 1) + (r + 1)) 0 (stateAfter cfg m 0)).2 := by rw [← hr]
    _ = (fitFrom cfg m none (r + 1) (e + p + 1) (stateAfter cfg m (e + p + 1))).2 := by
        rw [hmain]
    _ = ExitKind.earlyStopped (e + p + 1) := by rw [htail]

/-- Witness for C1: with patience `1`, validation every epoch, a maximized
metric that improves at epoch `0` (over the initial `-inf`) and never again,
a 10-epoch run stops early at exactly epoch `0 + 1 + 1 = 2`. -/
theorem early_stop_terminates_at_patience_boundary_witness :
    (fit ⟨10, 1, some 1, true, 0, false, false⟩ (fun _ => 0) none).exit =
      ExitKind.earlyStopped 2 ∧
    (fit ⟨10, 1, some 1, true, 0, false, false⟩ (fun _ => 0) none).config_written = true := by
  have h := early_stop_terminates_at_patience_boundary
    ⟨10, 1, some 1, true, 0, false, false⟩ (fun _ => 0) 0 1 rfl rfl (by decide)
    (by intro t ht; exact absurd ht (Nat.not_lt_zero t))
    (by decide)
    (by intro t _ _; show improves true 0 (some 0) = false; decide)
  exact h

/-- Every epoch record carries its own epoch index and the unconditional
checkpoint write. -/
lemma recAt_fields (cfg : Config) (m : Nat → ℚ) (t : Nat) :
    (recAt cfg m t).epoch = t ∧ (recAt cfg m t).wrote_checkpoint = true := by
  unfold recAt epochBody
  by_cases hv : validateAt cfg t = true
  · simp only [hv, if_true]
    by_cases hi : improves cfg.maximize_validation_metric (m t)
        (stateAfter cfg m t).best_val_metric = true
    · simp [hi]
    · simp only [Bool.not_eq_true] at hi
      simp [hi]
  · simp only [Bool.not_eq_true] at hv
    simp [hv]

/-- C2: a `KeyboardInterrupt` delivered during the body of epoch `k`
(modelled, per the spec's cancellation atomicity, at the loop boundary:
epoch `k` persists nothing) stops the loop with the records of the fully
completed epochs `0, …, k-1` exactly as an uninterrupted run would have
persisted them — no partial record for epoch `k` — and the run still reaches
the final teardown: the config file is written and the experiment-tracking
session is closed iff it was opened; the interrupt is a normal terminal
state, not an error. -/
theorem interrupt_graceful_teardown (cfg : Config) (m : Nat → ℚ) (k : Nat)
    (hk : k < cfg.num_epochs)
    (hnb : ∀ t, t < k → breakAt cfg m t = false) :
    (fit cfg m (some k)).exit = ExitKind.interrupted k ∧
    (fit cfg m (some k)).trace = (List.range k).map (recAt cfg m) ∧
    (∀ rc ∈ (fit cfg m (some k)).trace, rc.epoch < k ∧ rc.wrote_checkpoint = true) ∧
    (fit cfg m (some k)).config_written = true ∧
    (fit cfg m (some k)).wandb_finished = cfg.log_wandb := by
  have h : ∀ t, t < k → breakAt cfg m t = false ∧ (some k : Option Nat) ≠ some t := by
    intro t ht
    refine ⟨hnb t ht, ?_⟩
    simp only [ne_eq, Option.some.injEq]
    omega
  obtain ⟨r, hr⟩ : ∃ r, cfg.num_epochs = k + (r + 1) := ⟨cfg.num_epochs - k - 1, by omega⟩
  have hmain := fitFrom_upto cfg m (some k) k h k 0 (by omega) (r + 1)
  have htail : fitFrom cfg m (some k) (r + 1) k (stateAfter cfg m k) =
      ([], ExitKind.interrupted k) := by
    rw [fitFrom, if_pos rfl]
  have htrace : (fit cfg m (some k)).trace = (List.range k).map (recAt cfg m) := by
    show (fitFrom cfg m (some k) cfg.num_epochs 0 initState).1 = _
    calc (fitFrom cfg m (some k) cfg.num_epochs 0 initState).1
        = (fitFrom cfg m (some k) cfg.num_epochs 0 (stateAfter cfg m 0)).1 := rfl
      _ = (fitFrom cfg m (some k) (k + (r + 1)) 0 (stateAfter cfg m 0)).1 := by rw [← hr]
      _ = (List.range' 0 k).map (recAt cfg m) ++
            (fitFrom cfg m (some k) (r + 1) k (stateAfter cfg m k)).1 := by rw [hmain]
      _ = (List.range k).map (recAt cfg m) := by
            rw [htail]
            simp [List.range_eq_range']
  have hexit : (fit cfg m (some k)).exit = ExitKind.interrupted k := by
    show (fitFrom cfg m (some k) cfg.num_epochs 0 initState).2 = _
    calc (fitFrom cfg m (some k) cfg.num_epochs 0 initState).2
        = (fitFrom cfg m (some k) cfg.num_epochs 0 (stateAfter cfg m 0)).2 := rfl
      _ = (fitFrom cfg m (some k) (k + (r + 1)) 0 (stateAfter cfg m 0)).2 := by rw [← hr]
      _ = (fitFrom cfg m (some k) (r + 1) k (stateAfter cfg m k)).2 := by rw [hmain]
      _ = ExitKind.interrupted k := by rw [htail]
  refine ⟨hexit, htrace, ?_, rfl, rfl⟩
  intro rc hrc
  rw [htrace] at hrc
  simp only [List.mem_map, List.mem_range] at hrc
  obtain ⟨t, ht, rfl⟩ := hrc
  exact ⟨by rw [(recAt_fields cfg m t).1]; exact ht, (recAt_fields cfg m t).2⟩

/-- Witness for C2: interrupting a 5-epoch run (with wandb logging enabled)
during epoch 3 keeps exactly the three completed epochs' records, writes the
final config, and closes the tracking session. -/
theorem interrupt_graceful_teardown_witness :
    (fit ⟨5, 1, none, true, 0, true, false⟩ (fun _ => 0) (some 3)).exit =
      ExitKind.interrupted 3 ∧
    (fit ⟨5, 1, none, true, 0, true, false⟩ (fun _ => 0) (some 3)).trace =
      (List.range 3).map (recAt ⟨5, 1, none, true, 0, true, false⟩ (fun _ => 0)) ∧
    (∀ rc ∈ (fit ⟨5, 1, none, true, 0, true, false⟩ (fun _ => 0) (some 3)).trace,
      rc.epoch < 3 ∧ rc.wrote_checkpoint = true) ∧
    (fit ⟨5, 1, none, true, 0, true, false⟩ (fun _ => 0) (some 3)).config_written = true ∧
    (fit ⟨5, 1, none, true, 0, true, false⟩ (fun _ => 0) (some 3)).wandb_finished =
      Config.log_wandb ⟨5, 1, none, true, 0, true, false⟩ :=
  interrupt_graceful_teardown ⟨5, 1, none, true, 0, true, false⟩ (fun _ => 0) 3
    (by decide) (by decide)

/-- C5: an epoch the loop executes runs a validation pass iff its index is
`0`, or `num_epochs - 1`, or a multiple of `validate_every` — in particular
epoch `0` and the final epoch are always validated. -/
theorem validation_cadence_iff (cfg : Config) (m : Nat → ℚ) (i : Option Nat)
    (rc : EpochRecord) (h : rc ∈ (fit cfg m i).trace) :
    rc.validated = true ↔
      rc.epoch = 0 ∨ rc.epoch = cfg.num_epochs - 1 ∨ cfg.validate_every ∣ rc.epoch := by
  have hv : rc.validated = validateAt cfg rc.epoch :=
    (fitFrom_mem_trace cfg m i cfg.num_epochs 0 initState rc h).1
  rw [hv]
  unfold validateAt
  simp only [Bool.or_eq_true, beq_iff_eq]
  rw [Nat.dvd_iff_mod_eq_zero]
  tauto

/-- Witness for C5: in a 3-epoch run validating every 2nd epoch, the record
of epoch 1 is in the trace, is not validated, and indeed 1 is neither 0 nor
the final epoch nor a multiple of 2. -/
theorem validation_cadence_iff_witness :
    (recAt ⟨3, 2, none, true, 0, false, false⟩ (fun _ => 0) 1).validated = true ↔
      (recAt ⟨3, 2, none, true, 0, false, false⟩ (fun _ => 0) 1).epoch = 0 ∨
      (recAt ⟨3, 2, none, true, 0, false, false⟩ (fun _ => 0) 1).epoch =
        Config.num_epochs ⟨3, 2, none, true, 0, false, false⟩ - 1 ∨
      Config.validate_every ⟨3, 2, none, true, 0, false, false⟩ ∣
        (recAt ⟨3, 2, none, true, 0, false, false⟩ (fun _ => 0) 1).epoch :=
  validation_cadence_iff ⟨3, 2, none, true, 0, false, false⟩ (fun _ => 0) none
    (recAt ⟨3, 2, none, true, 0, false, false⟩ (fun _ => 0) 1) (by decide)

/-- If no earlier epoch broke, epoch `e < num_epochs` of an uninterrupted
run executes and its record lands in the trace (even if `e` itself breaks:
the `break` fires after the epoch's writes). -/
lemma recAt_mem_trace (cfg : Config) (m : Nat → ℚ) (e : Nat)
    (hN : e < cfg.num_epochs)
    (hnb : ∀ t, t < e → breakAt cfg m t = false) :
    recAt cfg m e ∈ (fit cfg m none).trace := by
  have hb : ∀ t, t < e → breakAt cfg m t = false ∧ (none : Option Nat) ≠ some t :=
    fun t ht => ⟨hnb t ht, by simp⟩
  obtain ⟨r, hr⟩ : ∃ r, cfg.num_epochs = e + (r + 1) := ⟨cfg.num_epochs - e - 1, by omega⟩
  have hmain := fitFrom_upto cfg m none e hb e 0 (by omega) (r + 1)
  have htail : recAt cfg m e ∈ (fitFrom cfg m none (r + 1) e (stateAfter cfg m e)).1 := by
    rw [fitFrom, if_neg (by simp)]
    by_cases hbrk : (epochBody cfg m e (stateAfter cfg m e)).2.2 = true
    · simp [hbrk, recAt]
    · simp only [Bool.not_eq_true] at hbrk
      simp [hbrk, recAt]
  have hmain0 : fitFrom cfg m none (e + (r + 1)) 0 initState =
      ((List.range' 0 e).map (recAt cfg m) ++
          (fitFrom cfg m none (r + 1) e (stateAfter cfg m e)).1,
        (fitFrom cfg m none (r + 1) e (stateAfter cfg m e)).2) := hmain
  show recAt cfg m e ∈ (fitFrom cfg m none cfg.num_epochs 0 initState).1
  rw [hr, hmain0]
  exact List.mem_append_right _ htail

/-- The `best_model.pt` write of epoch `e` happens exactly when `e` is a
validation epoch whose metric improves on the best seen so far. -/
lemma recAt_wrote_best (cfg : Config) (m : Nat → ℚ) (e : Nat) :
    (recAt cfg m e).wrote_best =
      (validateAt cfg e &&
        improves cfg.maximize_validation_metric (m e)
          ((stateAfter cfg m e).best_val_metric)) := by
  unfold recAt epochBody
  by_cases hv : validateAt cfg e = true
  · simp only [hv, if_true, Bool.true_and]
    by_cases hi : improves cfg.maximize_validation_metric (m e)
        (stateAfter cfg m e).best_val_metric = true
    · simp [hi]
    · simp only [Bool.not_eq_true] at hi
      simp [hi]
  · simp only [Bool.not_eq_true] at hv
    simp [hv]

/-- C8: every executed epoch writes `checkpoint.pt` unconditionally; the
`best_model.pt` write happens exactly on validation epochs whose metric
strictly improves on the best value seen so far, where improvement against
a previously recorded best `b` is the strict comparison `b < v` when
maximizing and `v < b` when minimizing. -/
theorem checkpoint_unconditional_best_strict (cfg : Config) (m : Nat → ℚ) (e : Nat)
    (hN : e < cfg.num_epochs)
    (hnb : ∀ t, t < e → breakAt cfg m t = false) :
    recAt cfg m e ∈ (fit cfg m none).trace ∧
    (recAt cfg m e).wrote_checkpoint = true ∧
    (recAt cfg m e).wrote_best =
      (validateAt cfg e &&
        improves cfg.maximize_validation_metric (m e)
          ((stateAfter cfg m e).best_val_metric)) ∧
    (∀ v b : ℚ, improves cfg.maximize_validation_metric v (some b) =
      if cfg.maximize_validation_metric then decide (b < v) else decide (v < b)) :=
  ⟨recAt_mem_trace cfg m e hN hnb, (recAt_fields cfg m e).2,
    recAt_wrote_best cfg m e, fun _ _ => rfl⟩

/-- Witness for C8 at epoch 2 of a 4-epoch maximizing run with constant
metric (no break can fire: patience is `None`). -/
theorem checkpoint_unconditional_best_strict_witness :
    recAt ⟨4, 1, none, true, 0, false, false⟩ (fun _ => 0) 2 ∈
      (fit ⟨4, 1, none, true, 0, false, false⟩ (fun _ => 0) none).trace ∧
    (recAt ⟨4, 1, none, true, 0, false, false⟩ (fun _ => 0) 2).wrote_checkpoint = true ∧
    (recAt ⟨4, 1, none, true, 0, false, false⟩ (fun _ => 0) 2).wrote_best =
      (validateAt ⟨4, 1, none, true, 0, false, false⟩ 2 &&
        improves (Config.maximize_validation_metric ⟨4, 1, none, true, 0, false, false⟩)
          ((fun _ => (0 : ℚ)) 2)
          ((stateAfter ⟨4, 1, none, true, 0, false, false⟩ (fun _ => 0) 2).best_val_metric)) ∧
    (∀ v b : ℚ, improves (Config.maximize_validation_metric ⟨4, 1, none, true, 0, false, false⟩)
        v (some b) =
      if Config.maximize_validation_metric ⟨4, 1, none, true, 0, false, false⟩ then
        decide (b < v) else decide (v < b)) :=
  checkpoint_unconditional_best_strict ⟨4, 1, none, true, 0, false, false⟩ (fun _ => 0) 2
    (by decide) (by decide)

/-- Lines 228-230 of `train.py`: `if args.profile: args.num_epochs = 2`,
executed in `setup_training` before `fit` reads `args.num_epochs`. -/
def setupProfileOverride (cfg : Config) : Config :=
  if cfg.profile then { cfg with num_epochs := 2 } else cfg

/-- C9: with the profile option enabled, setup overrides the configured
number of epochs to exactly 2 before the loop starts, so the run executes
at most 2 epochs regardless of the configured `num_epochs`. -/
theorem profile_limits_epochs_to_two (cfg : Config) (m : Nat → ℚ) (i : Option Nat)
    (hp : cfg.profile = true) :
    (setupProfileOverride cfg).num_epochs = 2 ∧
    (fit (setupProfileOverride cfg) m i).trace.length ≤ 2 := by
  have h2 : (setupProfileOverride cfg).num_epochs = 2 := by
    simp [setupProfileOverride, hp]
  refine ⟨h2, ?_⟩
  show (fitFrom (setupProfileOverride cfg) m i
      (setupProfileOverride cfg).num_epochs 0 initState).1.length ≤ 2
  rw [h2]
  exact fitFrom_length_le (setupProfileOverride cfg) m i 2 0 initState

/-- Witness for C9: a profiled run configured for 100 epochs executes at
most 2. -/
theorem profile_limits_epochs_to_two_witness :
    (setupProfileOverride ⟨100, 1, none, true, 0, false, true⟩).num_epochs = 2 ∧
    (fit (setupProfileOverride ⟨100, 1, none, true, 0, false, true⟩)
        (fun _ => 0) none).trace.length ≤ 2 :=
  profile_limits_epochs_to_two ⟨100, 1, none, true, 0, false, true⟩ (fun _ => 0) none rfl

/-!
Setup phase: `MultiTrainer.__init__` runs `setup_dataset` (which dispatches
on `args.loss_function`), then `setup_model`, then `setup_training` (which
runs the three pre-flight sanity checks, dispatches on `args.optimizer`,
builds the scheduler, and applies the profile override) — all before `fit`.
-/

/-- A Python exception message. -/
abbrev PyErr := String

/-- The one validation batch fetched by the pre-flight sanity check
(`imgs, targets = next(iter(dl))`). -/
structure Batch where
  imgs : Nat
  targets : Nat
deriving Repr, DecidableEq

/-- Which pre-flight sanity stage failed (lines 183-209 of `train.py`:
the validation dataloader, the model forward pass, or the performance
metric functions). -/
inductive Stage where
  | dataloader
  | model
  | metricFn
deriving Repr, DecidableEq

/-- How `MultiTrainer` setup can fail before any training epoch:
`configError name` models the `ValueError(f"Loss function {name} not
recognized")` of `setup_dataset`; `sanity` models a re-raised pre-flight
exception, tagged with its stage; `nameError` models the
`UnboundLocalError` raised at `PolynomialLR(optim, ...)` when none of the
`sgd`/`adam`/`adamw` branches assigned `optim`. -/
inductive InitError where
  | configError (name : String)
  | sanity (stage : Stage) (err : PyErr)
  | nameError
deriving Repr, DecidableEq

/-- Behaviour of the external collaborators that setup exercises, plus the
two dispatched names from the configuration. -/
structure SetupInput where
  loss_function : String
  optimizer : String
  fetch_batch : Except PyErr Batch
  run_model : Nat → Except PyErr Nat
  perf_funcs : List (Nat → Nat → Except PyErr Unit)

/-- Lines 108-112 of `train.py`: only `cross_entropy` is recognized. -/
def lossCheck (inp : SetupInput) : Except InitError Unit :=
  if inp.loss_function = "cross_entropy" then Except.ok ()
  else Except.error (InitError.configError inp.loss_function)

/-- Apply the performance functions in order to the sanity batch, returning
the first exception if any (lines 202-209 of `train.py`). -/
def runPerfFuncs : List (Nat → Nat → Except PyErr Unit) → Nat → Nat → Option PyErr
  | [], _, _ => none
  | f :: fs, scores, targets =>
    match f scores targets with
    | Except.error e => some e
    | Except.ok _ => runPerfFuncs fs scores targets

/-- The pre-flight sanity check of `setup_training` (lines 183-209):
fetch one real validation batch, apply the model to it, apply every
performance function to the model output; the first exception is re-raised
tagged with its stage. -/
def sanityCheck (inp : SetupInput) : Except (Stage × PyErr) (Nat × Nat) :=
  match inp.fetch_batch with
  | Except.error e => Except.error (Stage.dataloader, e)
  | Except.ok b =>
    match inp.run_model b.imgs with
    | Except.error e => Except.error (Stage.model, e)
    | Except.ok scores =>
      match runPerfFuncs inp.perf_funcs scores b.targets with
      | some e => Except.error (Stage.metricFn, e)
      | none => Except.ok (scores, b.targets)

/-- The supported optimizers. -/
inductive OptimizerKind where
  | sgd
  | adam
  | adamw
deriving Repr, DecidableEq

/-- Lines 211-222 of `train.py`: the `if/elif/elif` chain has no `else`, so
an unrecognized name leaves the local variable `optim` unassigned. -/
def optimizerDispatch (name : String) : Option OptimizerKind :=
  if name = "sgd" then some OptimizerKind.sgd
  else if name = "adam" then some OptimizerKind.adam
  else if name = "adamw" then some OptimizerKind.adamw
  else none

/-- Line 224 of `train.py`: `PolynomialLR(optim, ...)` reads `optim`;
if no dispatch branch assigned it, Python raises `UnboundLocalError`. -/
def schedulerSetup (optim : Option OptimizerKind) : Except InitError OptimizerKind :=
  match optim with
  | some o => Except.ok o
  | none => Except.error InitError.nameError

/-- The whole setup phase of `MultiTrainer.__init__`, in source order:
loss dispatch, pre-flight sanity checks, optimizer dispatch and scheduler
construction, profile override of `num_epochs`. -/
def trainerInit (inp : SetupInput) (cfg : Config) : Except InitError (OptimizerKind × Config) :=
  match lossCheck inp with
  | Except.error e => Except.error e
  | Except.ok _ =>
    match sanityCheck inp with
    | Except.error (s, e) => Except.error (InitError.sanity s e)
    | Except.ok _ =>
      match schedulerSetup (optimizerDispatch inp.optimizer) with
      | Except.error e => Except.error e
      | Except.ok o => Except.ok (o, setupProfileOverride cfg)

/-- A full run: setup, then the training loop.  A setup error aborts before
any epoch executes. -/
def runExperiment (inp : SetupInput) (cfg : Config) (m : Nat → ℚ) (i : Option Nat) :
    Except InitError FitResult :=
  match trainerInit inp cfg with
  | Except.error e => Except.error e
  | Except.ok (_, cfg') => Except.ok (fit cfg' m i)

/-- Which unrecognized configuration name an init error reports, if any. -/
def InitError.reportedName : InitError → Option String
  | InitError.configError n => some n
  | _ => none

/-- C6: with a recognized loss function, any exception raised during the
pre-flight sanity check — fetching one real validation batch, applying the
model to it, applying every metric function to the model output, once
before the loop — aborts the run before any training epoch executes
(`runExperiment` returns an error, never a `FitResult`), attributed to the
failing stage: dataloader, model, or metric function. -/
theorem sanity_failure_fatal_with_stage (inp : SetupInput) (cfg : Config)
    (m : Nat → ℚ) (i : Option Nat)
    (hloss : inp.loss_function = "cross_entropy") :
    (∀ e, inp.fetch_batch = Except.error e →
      runExperiment inp cfg m i = Except.error (InitError.sanity Stage.dataloader e)) ∧
    (∀ b e, inp.fetch_batch = Except.ok b → inp.run_model b.imgs = Except.error e →
      runExperiment inp cfg m i = Except.error (InitError.sanity Stage.model e)) ∧
    (∀ b scores e, inp.fetch_batch = Except.ok b → inp.run_model b.imgs = Except.ok scores →
      runPerfFuncs inp.perf_funcs scores b.targets = some e →
      runExperiment inp cfg m i = Except.error (InitError.sanity Stage.metricFn e)) := by
  have hl : lossCheck inp = Except.ok () := by
    simp [lossCheck, hloss]
  refine ⟨?_, ?_, ?_⟩
  · intro e he
    simp [runExperiment, trainerInit, hl, sanityCheck, he]
  · intro b e hb he
    simp [runExperiment, trainerInit, hl, sanityCheck, hb, he]
  · intro b scores e hb hs hm
    simp [runExperiment, trainerInit, hl, sanityCheck, hb, hs, hm]

/-- Witness for C6: a dataloader that raises aborts the whole run with a
dataloader-stage sanity error. -/
theorem sanity_failure_fatal_with_stage_witness :
    runExperiment ⟨"cross_entropy", "sgd", Except.error "boom", fun _ => Except.ok 0, []⟩
        ⟨1, 1, none, true, 0, false, false⟩ (fun _ => 0) none =
      Except.error (InitError.sanity Stage.dataloader "boom") :=
  (sanity_failure_fatal_with_stage
    ⟨"cross_entropy", "sgd", Except.error "boom", fun _ => Except.ok 0, []⟩
    ⟨1, 1, none, true, 0, false, false⟩ (fun _ => 0) none rfl).1 "boom" rfl

/-- Counterexample for C4: with loss `cross_entropy` and optimizer
`rmsprop` (sanity checks passing), setup does fail, but with the
unbound-local error from `PolynomialLR(optim, ...)` — not a configuration
error, and it identifies no name. -/
theorem optimizer_unrecognized_no_config_error :
    runExperiment ⟨"cross_entropy", "rmsprop", Except.ok ⟨0, 0⟩, fun _ => Except.ok 0, []⟩
        ⟨1, 1, none, true, 0, false, false⟩ (fun _ => 0) none =
      Except.error InitError.nameError ∧
    InitError.reportedName InitError.nameError = none := by
  exact ⟨rfl, rfl⟩

/-- C4 (amended): an unrecognized `loss_function` fails setup before any
epoch with a configuration error identifying the name; an unrecognized
`optimizer` (loss recognized, sanity checks passing) also fails setup
before any epoch, but with the unbound-local error, which identifies no
name. -/
theorem unrecognized_name_failure_modes (inp : SetupInput) (cfg : Config)
    (m : Nat → ℚ) (i : Option Nat) :
    (inp.loss_function ≠ "cross_entropy" →
      runExperiment inp cfg m i = Except.error (InitError.configError inp.loss_function) ∧
      InitError.reportedName (InitError.configError inp.loss_function) =
        some inp.loss_function) ∧
    (inp.loss_function = "cross_entropy" →
      inp.optimizer ≠ "sgd" → inp.optimizer ≠ "adam" → inp.optimizer ≠ "adamw" →
      ∀ r, sanityCheck inp = Except.ok r →
        runExperiment inp cfg m i = Except.error InitError.nameError ∧
        InitError.reportedName InitError.nameError = none) := by
  constructor
  · intro hl
    refine ⟨?_, rfl⟩
    simp [runExperiment, trainerInit, lossCheck, hl]
  · intro hl h1 h2 h3 r hs
    refine ⟨?_, rfl⟩
    have hlc : lossCheck inp = Except.ok () := by simp [lossCheck, hl]
    simp [runExperiment, trainerInit, hlc, hs, schedulerSetup, optimizerDispatch, h1, h2, h3]

/-- Witness for C4 (amended): loss name `mse` is rejected with a
configuration error that carries the name. -/
theorem unrecognized_name_failure_modes_witness :
    runExperiment ⟨"mse", "sgd", Except.ok ⟨0, 0⟩, fun _ => Except.ok 0, []⟩
        ⟨1, 1, none, true, 0, false, false⟩ (fun _ => 0) none =
      Except.error (InitError.configError "mse") ∧
    InitError.reportedName (InitError.configError "mse") = some "mse" :=
  (unrecognized_name_failure_modes ⟨"mse", "sgd", Except.ok ⟨0, 0⟩, fun _ => Except.ok 0, []⟩
    ⟨1, 1, none, true, 0, false, false⟩ (fun _ => 0) none).1 (by decide)

/-!
`MultiModuleRunner.validate_one_epoch` (lines 33-75 of `train.py`).
`self.dl_valid` is the insertion-ordered mapping from dataset name to that
dataset's validation loader; each loader yields its batches in the
dataset's natural order (`shuffle=False`).  The inner loop is
`for batch_idx in range(len(self.dl_valid))` — the length of the *mapping*,
i.e. the number of validation datasets — and calls `next(dl_iter)` each
iteration; a `StopIteration` from an exhausted iterator propagates out of
the `for` loop as an error.
-/

/-- `n` calls of `next` on an iterator over `batches`: the first `n`
batches, or `StopIteration` if the iterator is exhausted early. -/
def nextBatches : Nat → List Nat → Except String (List Nat)
  | 0, _ => Except.ok []
  | _ + 1, [] => Except.error "StopIteration"
  | n + 1, b :: bs =>
    match nextBatches n bs with
    | Except.ok r => Except.ok (b :: r)
    | Except.error e => Except.error e

/-- The per-dataset loop of `validate_one_epoch`: for each named loader,
process `n` batches (where the code sets `n = len(self.dl_valid)`),
returning per dataset the list of batches actually processed (each
processed batch gets a forward pass, loss log, and every metric function). -/
def validateLoop (n : Nat) : List (String × List Nat) → Except String (List (String × List Nat))
  | [] => Except.ok []
  | (name, batches) :: rest =>
    match nextBatches n batches with
    | Except.error e => Except.error e
    | Except.ok processed =>
      match validateLoop n rest with
      | Except.error e => Except.error e
      | Except.ok out => Except.ok ((name, processed) :: out)

/-- `validate_one_epoch`: the batch count per dataset is
`len(self.dl_valid)` — the number of datasets — as written at line 46 of
`train.py`. -/
def validateOneEpoch (dls : List (String × List Nat)) :
    Except String (List (String × List Nat)) :=
  validateLoop dls.length dls

/-- C3 (code bug): with the three configured validation datasets each
holding five batches, `validate_one_epoch` processes only the first three
batches of each dataset (`len(self.dl_valid) = 3`), silently skipping the
rest, and with single-batch datasets it crashes with `StopIteration` —
contradicting the documented behaviour that every batch of every validation
dataset is processed. -/
theorem validate_one_epoch_skips_batches :
    validateOneEpoch
        [("VessShape", [10, 11, 12, 13, 14]), ("DRIVE", [20, 21, 22, 23, 24]),
          ("VessMAP", [30, 31, 32, 33, 34])] =
      Except.ok [("VessShape", [10, 11, 12]), ("DRIVE", [20, 21, 22]),
          ("VessMAP", [30, 31, 32])] ∧
    validateOneEpoch [("VessShape", [10]), ("DRIVE", [20]), ("VessMAP", [30])] =
      Except.error "StopIteration" := by
  exact ⟨rfl, rfl⟩

/-!
The custom multiplicative-intensity augmentation (`generate_multiplicative`
in `src/dataset.py`, lines 30-36), used in `create_transform` with
`mult_val_limit = (0.7, 1.0)`:
```
mult_val = np.random.rand()*(mult_val_limit[1]-mult_val_limit[0]) + mult_val_limit[0]
return (img*mult_val).astype(np.uint8)
```
`np.random.rand()` is modelled as a parameter `u ∈ [0, 1)`; floats are
modelled as exact rationals (the operation only multiplies, truncates and
wraps, all exact at the inputs considered).
-/

/-- The single factor drawn for the whole image:
`u*(hi-lo) + lo` for `u ∈ [0, 1)`. -/
def multFactor (mult_val_limit : ℚ × ℚ) (u : ℚ) : ℚ :=
  u * (mult_val_limit.2 - mult_val_limit.1) + mult_val_limit.1

/-- numpy `astype(np.uint8)` on a nonnegative float value: the fractional
part is truncated and the integer wraps modulo 256 — no clipping. -/
def astypeUint8 (x : ℚ) : Nat := (Int.toNat ⌊x⌋) % 256

/-- The custom operation as the source writes it:
`(img*mult_val).astype(np.uint8)`, one factor for every pixel. -/
def customMultiply (mult_val_limit : ℚ × ℚ) (u : ℚ) (img : List Nat) : List Nat :=
  img.map fun (p : Nat) => astypeUint8 ((p : ℚ) * multFactor mult_val_limit u)

/-- Modelled from the spec's wording for comparison: the scaled value
clipped back to the valid 8-bit range `[0, 255]` (truncating only the
fraction, never wrapping). -/
def customMultiplyClipped (mult_val_limit : ℚ × ℚ) (u : ℚ) (img : List Nat) : List Nat :=
  img.map fun (p : Nat) => min 255 (Int.toNat ⌊(p : ℚ) * multFactor mult_val_limit u⌋)

/-- Counterexample for C7: the operation does not clip.  With limit range
`(3, 3)` (so the drawn factor is `3`) a pixel of value 100 maps to
`300 % 256 = 44` under the source's `astype(np.uint8)` cast, while the
claimed clipping semantics would give `255`. -/
theorem custom_multiply_wraps_not_clips :
    customMultiply (3, 3) 0 [100] = [44] ∧
    customMultiplyClipped (3, 3) 0 [100] = [255] ∧ (44 : Nat) ≠ 255 := by
  have h : (100 : ℚ) * multFactor (3, 3) 0 = ((300 : ℤ) : ℚ) := by
    norm_num [multFactor]
  refine ⟨?_, ?_, by decide⟩
  · show [astypeUint8 ((100 : ℚ) * multFactor (3, 3) 0)] = [44]
    rw [astypeUint8, h, Int.floor_intCast]
    decide
  · show [min 255 (Int.toNat ⌊(100 : ℚ) * multFactor (3, 3) 0⌋)] = [255]
    rw [h, Int.floor_intCast]
    decide

/-- C7 (amended): the operation multiplies every pixel by the single
uniformly drawn factor and casts with `astype(np.uint8)` (truncate and
wrap), not by clipping; however, for the configured range `(0.7, 1.0)` the
factor lies in `[0.7, 1)`, so on any valid 8-bit image the scaled values
stay within `[0, 255]`, no wrapping occurs, and the output coincides
pixelwise with the clipped semantics. -/
theorem custom_multiply_configured_range_matches_clip (u : ℚ) (img : List Nat)
    (hu0 : 0 ≤ u) (hu1 : u < 1) (himg : ∀ p ∈ img, p ≤ 255) :
    customMultiply (7/10, 1) u img =
      img.map (fun (p : Nat) => astypeUint8 ((p : ℚ) * multFactor (7/10, 1) u)) ∧
    customMultiply (7/10, 1) u img = customMultiplyClipped (7/10, 1) u img := by
  refine ⟨rfl, ?_⟩
  have hf0 : 0 ≤ multFactor (7/10, 1) u := by
    unfold multFactor
    nlinarith
  have hf1 : multFactor (7/10, 1) u ≤ 1 := by
    unfold multFactor
    nlinarith
  unfold customMultiply customMultiplyClipped
  apply List.map_congr_left
  intro p hp
  have hp255 : p ≤ 255 := himg p hp
  have hx0 : (0 : ℚ) ≤ (p : ℚ) * multFactor (7/10, 1) u :=
    mul_nonneg (by positivity) hf0
  have hx255 : (p : ℚ) * multFactor (7/10, 1) u ≤ 255 := by
    calc (p : ℚ) * multFactor (7/10, 1) u ≤ (p : ℚ) * 1 :=
          mul_le_mul_of_nonneg_left hf1 (by positivity)
      _ = (p : ℚ) := mul_one _
      _ ≤ 255 := by exact_mod_cast hp255
  have hfl0 : 0 ≤ ⌊(p : ℚ) * multFactor (7/10, 1) u⌋ := Int.floor_nonneg.mpr hx0
  have hfl255 : ⌊(p : ℚ) * multFactor (7/10, 1) u⌋ ≤ 255 := by
    have h1 : ((⌊(p : ℚ) * multFactor (7/10, 1) u⌋ : ℤ) : ℚ) ≤
        (p : ℚ) * multFactor (7/10, 1) u := Int.floor_le _
    have h2 : ((⌊(p : ℚ) * multFactor (7/10, 1) u⌋ : ℤ) : ℚ) ≤ 255 := le_trans h1 hx255
    exact_mod_cast h2
  have htn : Int.toNat ⌊(p : ℚ) * multFactor (7/10, 1) u⌋ ≤ 255 := by omega
  unfold astypeUint8
  rw [Nat.mod_eq_of_lt (by omega)]
  exact (min_eq_right htn).symm

/-- Witness for C7 (amended): with `u = 0` (factor `0.7`) the image
`[100, 255]` maps to `[70, 178]` under both the source cast and the
clipped semantics. -/
theorem custom_multiply_configured_range_matches_clip_witness :
    customMultiply (7/10, 1) 0 [100, 255] =
      [100, 255].map (fun (p : Nat) => astypeUint8 ((p : ℚ) * multFactor (7/10, 1) 0)) ∧
    customMultiply (7/10, 1) 0 [100, 255] = customMultiplyClipped (7/10, 1) 0 [100, 255] :=
  custom_multiply_configured_range_matches_clip 0 [100, 255] (by norm_num) (by norm_num)
    (by intro p hp; simp at hp; rcases hp with h | h <;> omega)

/-!
`get_datasets` of `src/experimenters/multiple_datasets/dataset.py`
(lines 33-55), modelled symbolically: each dataset is described by its
constructor (`VessMAP` or `DRIVE`), root path, and constructor arguments;
paths are lists of segments (`Path(datasets_root) / "VessMAP"` becomes
`datasets_root ++ ["VessMAP"]`).
-/

/-- Which dataset class of `torchtrainer.datasets.vessel_base` is
constructed. -/
inductive DatasetKind where
  | vessmap
  | drive
deriving Repr, DecidableEq

/-- A `ValidTransforms` instance: resize target size and whether the target
mask is resized too (always `True` by default in the source). -/
structure TransformSpec where
  resize_size : Nat × Nat
  resize_target : Bool
deriving Repr, DecidableEq

/-- The constructor call for one dataset in `get_datasets`. -/
structure DatasetSpec where
  kind : DatasetKind
  root : List String
  keepdim : Bool
  split : Option String
  channels : Option String
  ignore_index : Option Nat
  transforms : TransformSpec
deriving Repr, DecidableEq

/-- `ValidTransforms(resize_size=(256, 256))`. -/
def transforms256 : TransformSpec := ⟨(256, 256), true⟩

/-- `ValidTransforms(resize_size=(512, 512))`. -/
def transforms512 : TransformSpec := ⟨(512, 512), true⟩

/-- `get_datasets(datasets_root)`: the training dataset, the named
validation datasets in insertion order, and the ignore index. -/
def getDatasets (datasets_root : List String) :
    DatasetSpec × List (String × DatasetSpec) × Nat :=
  let ignore_index := 2
  let root_drive := datasets_root ++ ["DRIVE"]
  let root_vessmap := datasets_root ++ ["VessMAP"]
  let ds_train_vessshape : DatasetSpec :=
    ⟨DatasetKind.vessmap, root_vessmap, true, none, none, none, transforms256⟩
  let ds_valid_vessshape : DatasetSpec :=
    ⟨DatasetKind.vessmap, root_vessmap, true, none, none, none, transforms256⟩
  let ds_valid_drive : DatasetSpec :=
    ⟨DatasetKind.drive, root_drive, true, some "test", some "gray",
      some ignore_index, transforms512⟩
  let ds_valid_vessmap : DatasetSpec :=
    ⟨DatasetKind.vessmap, root_vessmap, true, none, none, none, transforms256⟩
  (ds_train_vessshape,
    [("VessShape", ds_valid_vessshape), ("DRIVE", ds_valid_drive),
      ("VessMAP", ds_valid_vessmap)],
    ignore_index)

/-- C10: the validation dataset named "VessShape" is constructed exactly
like the training dataset — a `VessMAP` dataset on the VessMAP root with
`keepdim=True` and the 256×256 resize transform — so it evaluates the model
on the training data, and no returned dataset is rooted in the VessShape
directory (the computed `root_vesshape` is never used). -/
theorem vesshape_validation_equals_training_data (root : List String) :
    ((getDatasets root).2.1.lookup "VessShape" = some (getDatasets root).1) ∧
    (getDatasets root).1 =
      ⟨DatasetKind.vessmap, root ++ ["VessMAP"], true, none, none, none, transforms256⟩ ∧
    (∀ p ∈ (getDatasets root).2.1, p.2.root ≠ root ++ ["VessShape"]) ∧
    (getDatasets root).1.root ≠ root ++ ["VessShape"] := by
  refine ⟨rfl, rfl, ?_, ?_⟩
  · intro p hp
    have hne : ∀ seg : String, seg ≠ "VessShape" →
        root ++ [seg] ≠ root ++ ["VessShape"] := by
      intro seg hseg h
      exact hseg (by simpa using List.append_cancel_left h)
    simp only [getDatasets, List.mem_cons, List.not_mem_nil, or_false] at hp
    rcases hp with h | h | h <;> subst h
    · exact hne "VessMAP" (by decide)
    · exact hne "DRIVE" (by decide)
    · exact hne "VessMAP" (by decide)
  · intro h
    have : ("VessMAP" : String) = "VessShape" := by
      simpa using List.append_cancel_left h
    exact absurd this (by decide)
